import Mathlib

/-!
Verification of the LATOKEN market-making core
(`la_token_market_making_python/latoken_client.py` and
`la_token_market_making_python/LA_TOKEN_market_making.py`).

Prices, quantities and budgets are embedded as rationals; Python dicts for
order books are embedded by their four relevant keys; the HMAC-SHA512
signing pipeline of `place_order` is embedded over byte lists (`Nat` bytes,
64-bit words as `Nat` reduced mod `2 ^ 64`).
-/

namespace Latoken

/-- One ask/bid level of the order book, a dict with keys
`price` and `quantity` (`level.get` defaults of `0` are taken as the
field values). -/
structure Level where
  price : ℚ
  quantity : ℚ
  deriving DecidableEq, Repr

/-- One entry of the `purchases` list built by
`calculate_purchase_amount`: a dict with keys `price`, `quantity`, `cost`. -/
structure Allocation where
  price : ℚ
  quantity : ℚ
  cost : ℚ
  deriving DecidableEq, Repr

/-- The dict returned by `calculate_purchase_amount`. -/
structure Plan where
  total_quantity : ℚ
  total_cost : ℚ
  average_price : ℚ
  purchases : List Allocation
  deriving DecidableEq, Repr

/-- A value held under one of the order-book keys: either Python `None`
or a list of levels.  `Option.some ls` is a level list, `Option.none`
is Python `None`. -/
def JVal : Type := Option (List Level)

instance : DecidableEq JVal := inferInstanceAs (DecidableEq (Option (List Level)))

/-- The order-book dict as returned by `get_book`, restricted to the four
keys the client reads or writes (`ask`, `asks`, `bid`, `bids`); a field of
`Option.none` means the key is absent from the dict, `some v` means the key
is present and holds `v`. -/
structure RawBook where
  ask : Option JVal
  asks : Option JVal
  bid : Option JVal
  bids : Option JVal
  deriving DecidableEq

/-- A `get_book` result: a dict, or some non-dict JSON value
(`isinstance(book, dict)` is false). -/
inductive Book where
  | dict (b : RawBook)
  | nondict
  deriving DecidableEq

/-- Python truthiness coercion `x or []` applied to an order-book value:
`None` becomes the empty list, a list stays itself
(an empty list also yields `[]`). -/
def orEmpty (v : JVal) : List Level := v.getD []

/-- Lines 114-119 of `latoken_client.py`: extract the ask levels from the
book, preferring the `asks` key over the legacy `ask` key, defaulting to
the empty list when the book is not a dict, the keys are absent, or the
selected value is `None`. -/
def extractAsks : Book → List Level
  | Book.nondict => []
  | Book.dict b =>
    match b.asks with
    | some v => orEmpty v
    | none =>
      match b.ask with
      | some v => orEmpty v
      | none => []

/-- Lines 125-144 of `latoken_client.py`: the greedy walk over the ask
levels.  Given the remaining budget, returns the `purchases` list and the
accumulated `total_qty` and `total_cost`.  The `remaining <= 0` test at the
top of the loop body is the `break`; a level whose computed quantity is
`<= 0` is skipped with `remaining` unchanged (`continue`). -/
def purchaseLoop (remaining : ℚ) : List Level → List Allocation × ℚ × ℚ
  | [] => ([], 0, 0)
  | level :: rest =>
    if remaining ≤ 0 then ([], 0, 0)
    else
      let price := level.price
      let qty_available := level.quantity
      let cost_full := price * qty_available
      let qty : ℚ :=
        if cost_full ≤ remaining then qty_available
        else if price > 0 then remaining / price else 0
      let cost : ℚ :=
        if cost_full ≤ remaining then cost_full else qty * price
      if qty ≤ 0 then purchaseLoop remaining rest
      else
        let r := purchaseLoop (remaining - cost) rest
        (⟨price, qty, cost⟩ :: r.1, qty + r.2.1, cost + r.2.2)

/-- The zero plan returned for a non-positive budget (lines 104-110), and
also produced when no level is consumed. -/
def zeroPlan : Plan :=
  { total_quantity := 0, total_cost := 0, average_price := 0, purchases := [] }

/-- `LatokenClient.calculate_purchase_amount` (lines 84-151 of
`latoken_client.py`).  The order book that `self.get_book` would return is
passed as the `book` argument; everything else follows the Python
line by line. -/
def calculate_purchase_amount (budget : ℚ) (book : Book) : Plan :=
  if budget ≤ 0 then zeroPlan
  else
    let asks := extractAsks book
    let r := purchaseLoop budget asks
    let total_qty := r.2.1
    let total_cost := r.2.2
    { total_quantity := total_qty
      total_cost := total_cost
      average_price := if total_qty > 0 then total_cost / total_qty else 0
      purchases := r.1 }

/-- `get_order_book` (lines 234-249 of `latoken_client.py`), applied to the
book `client.get_book` returned: rename the legacy `bid` key to `bids` and
the legacy `ask` key to `asks` (each `book.pop(key) or []` value replaces
whatever the canonical key held), leaving a non-dict book untouched. -/
def get_order_book (book : Book) : Book :=
  match book with
  | Book.nondict => Book.nondict
  | Book.dict b =>
    let b1 :=
      match b.bid with
      | some v => { b with bid := none, bids := some (some (orEmpty v)) }
      | none => b
    let b2 :=
      match b1.ask with
      | some v => { b1 with ask := none, asks := some (some (orEmpty v)) }
      | none => b1
    Book.dict b2

/-- The order `type` string chosen by `place_order`. -/
inductive OType where
  | LIMIT
  | MARKET
  deriving DecidableEq, Repr

/-- The JSON payload built by `place_order` (lines 195-210 of
`latoken_client.py`), restricted to its fields; `price` and
`clientOrderId` are `Option` because the corresponding dict keys are only
set conditionally.  Numeric arguments are serialised with `str`; the
embedding renders them with `toString` on `ℚ`, which plays no role in the
claims. -/
structure OrderPayload where
  baseCurrency : String
  quoteCurrency : String
  side : String
  condition : String
  type : OType
  quantity : String
  timestamp : Nat
  price : Option String
  clientOrderId : Option String

/-- Lines 195-210 of `place_order`: derive the order type from the `price`
argument (`LIMIT` iff `price is not None`), build the payload, and set the
`price` key only in the `LIMIT` case. -/
def place_order_payload (currency_id quote_id : String) (side : String)
    (quantity : ℚ) (price : Option ℚ) (condition : String)
    (client_order_id : Option String) (timestamp : Nat) : OrderPayload :=
  let otype := if price.isSome then OType.LIMIT else OType.MARKET
  { baseCurrency := currency_id
    quoteCurrency := quote_id
    side := side.toUpper
    condition := condition
    type := otype
    quantity := toString quantity
    timestamp := timestamp
    price := if otype = OType.LIMIT then (price.map toString) else none
    clientOrderId := client_order_id }

/-! ## Scheduler (`LA_TOKEN_market_making.py`)

The outcome of an external call (the WIX budget lookup, the LATOKEN book
fetch) is either a returned value or a raised exception; the embedding
makes that outcome an explicit argument of the step that performs the
call. -/

/-- Outcome of running a piece of Python code: a value, or an exception. -/
inductive PyResult (α : Type) where
  | ok (a : α)
  | exc
  deriving DecidableEq, Repr

/-- `MarketMaker.get_daily_budget` (lines 49-59): the `try` block evaluates
the WIX lookup; on success its value is returned, on any exception the
handler logs and returns `None`. -/
def MarketMaker.get_daily_budget (wix_lookup : PyResult ℚ) : Option ℚ :=
  match wix_lookup with
  | PyResult.ok b => some b
  | PyResult.exc => none

/-- `MarketMaker.fetch_order_book` (lines 61-75): the `try` block evaluates
the LATOKEN fetch; on success the book is returned, on any exception the
handler logs and returns `None`. -/
def MarketMaker.fetch_order_book (latoken_fetch : PyResult Book) : Option Book :=
  match latoken_fetch with
  | PyResult.ok book => some book
  | PyResult.exc => none

/-- `MarketMaker.run_cycle` (lines 77-92): obtain the daily budget, fetch
the order book (each already shielded by its own handler), and fall through
to the strategy stub.  The result is the outcome of the call as a whole:
`PyResult.ok ()` means the cycle returned normally. -/
def MarketMaker.run_cycle (wix_lookup : PyResult ℚ)
    (latoken_fetch : PyResult Book) : PyResult Unit :=
  let _budget := MarketMaker.get_daily_budget wix_lookup
  let _order_book := MarketMaker.fetch_order_book latoken_fetch
  PyResult.ok ()

/-- Scheduler states: `Idle` between cycles (sleeping), `Running` inside a
cycle, `Crashed` when an exception escaped `run_cycle` and terminated the
`while True` loop of `MarketMaker.start` (lines 94-104). -/
inductive SchedState where
  | Idle
  | Running
  | Crashed
  deriving DecidableEq, Repr

/-- One iteration of the `while True` loop of `MarketMaker.start`, begun
from the `Running` state: if `run_cycle` returns normally the scheduler
sleeps (`Idle`); if it raises, the loop is torn down (`Crashed`). -/
def scheduler_next (wix_lookup : PyResult ℚ) (latoken_fetch : PyResult Book) :
    SchedState :=
  match MarketMaker.run_cycle wix_lookup latoken_fetch with
  | PyResult.ok _ => SchedState.Idle
  | PyResult.exc => SchedState.Crashed

/-- The loop of `MarketMaker.start` over a whole schedule of cycles, one
pair of external-call outcomes per cycle: the state after all the given
cycles have been attempted. -/
def scheduler_run : List (PyResult ℚ × PyResult Book) → SchedState
  | [] => SchedState.Idle
  | (w, f) :: rest =>
    match MarketMaker.run_cycle w f with
    | PyResult.ok _ => scheduler_run rest
    | PyResult.exc => SchedState.Crashed

/-! ## HMAC-SHA512 signing (`place_order`, lines 211-217)

`hashlib.sha512` and `hmac.new` are embedded as FIPS 180-4 SHA-512 and
FIPS 198-1 HMAC over byte lists; a byte is a `Nat` below `256`, a 64-bit
word a `Nat` reduced mod `2 ^ 64` after every arithmetic step. -/

/-- The 64-bit word modulus. -/
def wordMod : Nat := 2 ^ 64

/-- Wrapping 64-bit addition. -/
def add64 (a b : Nat) : Nat := (a + b) % wordMod

/-- Right rotation of a 64-bit word. -/
def rotr64 (x n : Nat) : Nat := ((x >>> n) ||| (x <<< (64 - n))) % wordMod

/-- Bitwise complement of a 64-bit word. -/
def not64 (x : Nat) : Nat := x ^^^ (wordMod - 1)

/-- SHA-512 `Ch`. -/
def ch64 (x y z : Nat) : Nat := (x &&& y) ^^^ (not64 x &&& z)

/-- SHA-512 `Maj`. -/
def maj64 (x y z : Nat) : Nat := (x &&& y) ^^^ (x &&& z) ^^^ (y &&& z)

/-- SHA-512 `Σ₀`. -/
def bsig0 (x : Nat) : Nat := rotr64 x 28 ^^^ rotr64 x 34 ^^^ rotr64 x 39

/-- SHA-512 `Σ₁`. -/
def bsig1 (x : Nat) : Nat := rotr64 x 14 ^^^ rotr64 x 18 ^^^ rotr64 x 41

/-- SHA-512 `σ₀`. -/
def ssig0 (x : Nat) : Nat := rotr64 x 1 ^^^ rotr64 x 8 ^^^ (x >>> 7)

/-- SHA-512 `σ₁`. -/
def ssig1 (x : Nat) : Nat := rotr64 x 19 ^^^ rotr64 x 61 ^^^ (x >>> 6)

/-- The 80 SHA-512 round constants of FIPS 180-4 (decimal). -/
def K : List Nat :=
  [4794697086780616226, 8158064640168781261, 13096744586834688815, 16840607885511220156,
   4131703408338449720, 6480981068601479193, 10538285296894168987, 12329834152419229976,
   15566598209576043074, 1334009975649890238, 2608012711638119052, 6128411473006802146,
   8268148722764581231, 9286055187155687089, 11230858885718282805, 13951009754708518548,
   16472876342353939154, 17275323862435702243, 1135362057144423861, 2597628984639134821,
   3308224258029322869, 5365058923640841347, 6679025012923562964, 8573033837759648693,
   10970295158949994411, 12119686244451234320, 12683024718118986047, 13788192230050041572,
   14330467153632333762, 15395433587784984357, 489312712824947311, 1452737877330783856,
   2861767655752347644, 3322285676063803686, 5560940570517711597, 5996557281743188959,
   7280758554555802590, 8532644243296465576, 9350256976987008742, 10552545826968843579,
   11727347734174303076, 12113106623233404929, 14000437183269869457, 14369950271660146224,
   15101387698204529176, 15463397548674623760, 17586052441742319658, 1182934255886127544,
   1847814050463011016, 2177327727835720531, 2830643537854262169, 3796741975233480872,
   4115178125766777443, 5681478168544905931, 6601373596472566643, 7507060721942968483,
   8399075790359081724, 8693463985226723168, 9568029438360202098, 10144078919501101548,
   10430055236837252648, 11840083180663258601, 13761210420658862357, 14299343276471374635,
   14566680578165727644, 15097957966210449927, 16922976911328602910, 17689382322260857208,
   500013540394364858, 748580250866718886, 1242879168328830382, 1977374033974150939,
   2944078676154940804, 3659926193048069267, 4368137639120453308, 4836135668995329356,
   5532061633213252278, 6448918945643986474, 6902733635092675308, 7801388544844847127]

/-- The eight-word SHA-512 working state. -/
structure Hash8 where
  a : Nat
  b : Nat
  c : Nat
  d : Nat
  e : Nat
  f : Nat
  g : Nat
  h : Nat
  deriving DecidableEq, Repr

/-- The SHA-512 initial hash value (decimal). -/
def IV : Hash8 :=
  ⟨7640891576956012808, 13503953896175478587,
   4354685564936845355, 11912009170470909681,
   5840696475078001361, 11170449401992604703,
   2270897969802886507, 6620516959819538809⟩

/-- Big-endian byte serialisation of `v` on `n` bytes. -/
def beBytes : Nat → Nat → List Nat
  | 0, _ => []
  | n + 1, v => beBytes n (v >>> 8) ++ [v &&& 0xff]

/-- Big-endian word from a list of bytes. -/
def beWord (bytes : List Nat) : Nat := bytes.foldl (fun acc b => acc * 256 + b) 0

/-- Split a list into consecutive chunks of `n` elements. -/
def chunksOf (n : Nat) (l : List Nat) : List (List Nat) :=
  if h : l = [] ∨ n = 0 then [] else l.take n :: chunksOf n (l.drop n)
termination_by l.length
decreasing_by
  simp only [List.length_drop]
  push_neg at h
  have := List.length_pos.mpr h.1
  omega

/-- Extend the 16 words of a block to the 80 words of the SHA-512 message
schedule (`fuel` is the number of words still to append). -/
def extendW (fuel : Nat) (ws : Array Nat) : Array Nat :=
  match fuel with
  | 0 => ws
  | fuel + 1 =>
    let t := ws.size
    let nw := (ssig1 (ws[t - 2]!) + ws[t - 7]! + ssig0 (ws[t - 15]!) + ws[t - 16]!) % wordMod
    extendW fuel (ws.push nw)

/-- One SHA-512 round, fed one `(K, W)` pair. -/
def sha512Round (st : Hash8) (kw : Nat × Nat) : Hash8 :=
  let t1 := (st.h + bsig1 st.e + ch64 st.e st.f st.g + kw.1 + kw.2) % wordMod
  let t2 := (bsig0 st.a + maj64 st.a st.b st.c) % wordMod
  ⟨(t1 + t2) % wordMod, st.a, st.b, st.c, (st.d + t1) % wordMod, st.e, st.f, st.g⟩

/-- SHA-512 compression of one 128-byte block into the running state. -/
def compress (st : Hash8) (block : List Nat) : Hash8 :=
  let ws := extendW 64 ((chunksOf 8 block).map beWord).toArray
  let r := (K.zip ws.toList).foldl sha512Round st
  ⟨add64 st.a r.a, add64 st.b r.b, add64 st.c r.c, add64 st.d r.d,
   add64 st.e r.e, add64 st.f r.f, add64 st.g r.g, add64 st.h r.h⟩

/-- SHA-512 padding: `0x80`, zeros, and the 128-bit big-endian bit length,
to a multiple of 128 bytes. -/
def pad512 (msg : List Nat) : List Nat :=
  let len := msg.length
  let zeros := (112 + 128 - (len + 1) % 128) % 128
  msg ++ [0x80] ++ List.replicate zeros 0 ++ beBytes 16 (8 * len)

/-- SHA-512 of a byte list: the 64-byte digest (`hashlib.sha512(...).digest()`). -/
def sha512 (msg : List Nat) : List Nat :=
  let final := (chunksOf 128 (pad512 msg)).foldl compress IV
  beBytes 8 final.a ++ beBytes 8 final.b ++ beBytes 8 final.c ++ beBytes 8 final.d ++
    beBytes 8 final.e ++ beBytes 8 final.f ++ beBytes 8 final.g ++ beBytes 8 final.h

/-- One lowercase hexadecimal digit. -/
def hexChar (n : Nat) : Char :=
  if n < 10 then Char.ofNat (48 + n) else Char.ofNat (87 + n)

/-- Lowercase hexadecimal rendering of a byte list (`.hexdigest()`). -/
def toHexString (bytes : List Nat) : String :=
  String.mk (bytes.flatMap fun b => [hexChar (b / 16), hexChar (b % 16)])

/-- HMAC-SHA512 (`hmac.new(key, msg, hashlib.sha512).digest()`): block size
128 bytes, a longer key is first hashed, `ipad`/`opad` are `0x36`/`0x5c`. -/
def hmacSha512 (key msg : List Nat) : List Nat :=
  let kh := if 128 < key.length then sha512 key else key
  let k0 := kh ++ List.replicate (128 - kh.length) 0
  let opad := k0.map fun b => b ^^^ 0x5c
  let ipad := k0.map fun b => b ^^^ 0x36
  sha512 (opad ++ sha512 (ipad ++ msg))

/-- Lines 213-217 of `place_order`: the `X-LA-SIGNATURE` header value,
`hmac.new(self.api_secret.encode(), body.encode(), hashlib.sha512).hexdigest()`,
as a function of the encoded secret and the encoded canonical body. -/
def place_order_signature (api_secret body : List Nat) : String :=
  toHexString (hmacSha512 api_secret body)

/-! ## Rewrite lemmas for the greedy loop -/

lemma purchaseLoop_nil (r : ℚ) : purchaseLoop r [] = ([], 0, 0) := rfl

lemma purchaseLoop_of_nonpos (r : ℚ) (asks : List Level) (h : r ≤ 0) :
    purchaseLoop r asks = ([], 0, 0) := by
  cases asks with
  | nil => rfl
  | cons l rest => simp [purchaseLoop, h]

/-- Full-consumption branch, level emitted. -/
lemma purchaseLoop_cons_full (r : ℚ) (l : Level) (rest : List Level)
    (hr : ¬ r ≤ 0) (hc : l.price * l.quantity ≤ r) (hq : ¬ l.quantity ≤ 0) :
    purchaseLoop r (l :: rest) =
      (⟨l.price, l.quantity, l.price * l.quantity⟩ ::
          (purchaseLoop (r - l.price * l.quantity) rest).1,
        l.quantity + (purchaseLoop (r - l.price * l.quantity) rest).2.1,
        l.price * l.quantity + (purchaseLoop (r - l.price * l.quantity) rest).2.2) := by
  simp [purchaseLoop, hr, hc, hq]

/-- Full-consumption branch, level skipped because its quantity is `≤ 0`. -/
lemma purchaseLoop_cons_full_skip (r : ℚ) (l : Level) (rest : List Level)
    (hr : ¬ r ≤ 0) (hc : l.price * l.quantity ≤ r) (hq : l.quantity ≤ 0) :
    purchaseLoop r (l :: rest) = purchaseLoop r rest := by
  simp [purchaseLoop, hr, hc, hq]

/-- Partial-fill branch with a positive price. -/
lemma purchaseLoop_cons_part (r : ℚ) (l : Level) (rest : List Level)
    (hr : ¬ r ≤ 0) (hc : ¬ l.price * l.quantity ≤ r) (hp : l.price > 0) :
    purchaseLoop r (l :: rest) =
      (⟨l.price, r / l.price, r / l.price * l.price⟩ ::
          (purchaseLoop (r - r / l.price * l.price) rest).1,
        r / l.price + (purchaseLoop (r - r / l.price * l.price) rest).2.1,
        r / l.price * l.price + (purchaseLoop (r - r / l.price * l.price) rest).2.2) := by
  have hq : ¬ r / l.price ≤ 0 :=
    not_le.mpr (div_pos (lt_of_not_le hr) hp)
  simp [purchaseLoop, hr, hc, hp, hq]

/-- Partial-fill branch with a non-positive price: quantity computed as `0`,
level skipped. -/
lemma purchaseLoop_cons_part_zero (r : ℚ) (l : Level) (rest : List Level)
    (hr : ¬ r ≤ 0) (hc : ¬ l.price * l.quantity ≤ r) (hp : ¬ l.price > 0) :
    purchaseLoop r (l :: rest) = purchaseLoop r rest := by
  simp [purchaseLoop, hr, hc, hp]

/-- Loop invariant behind budget conservation: the accumulated cost never
exceeds the remaining budget (or `0` when the remaining budget is
negative). -/
lemma purchaseLoop_cost_le (asks : List Level) :
    ∀ r : ℚ, (∀ l ∈ asks, 0 ≤ l.price ∧ 0 ≤ l.quantity) →
      (purchaseLoop r asks).2.2 ≤ max r 0 := by
  induction asks with
  | nil => intro r _; simpa [purchaseLoop_nil] using le_max_right r 0
  | cons l rest ih =>
    intro r h
    have hl := h l (List.mem_cons_self l rest)
    have hrest : ∀ l' ∈ rest, 0 ≤ l'.price ∧ 0 ≤ l'.quantity :=
      fun l' hl' => h l' (List.mem_cons_of_mem _ hl')
    by_cases hr : r ≤ 0
    · simpa [purchaseLoop_of_nonpos _ _ hr] using le_max_right r 0
    · have hr0 : 0 ≤ r := le_of_lt (lt_of_not_le hr)
      by_cases hc : l.price * l.quantity ≤ r
      · by_cases hq : l.quantity ≤ 0
        · rw [purchaseLoop_cons_full_skip r l rest hr hc hq]
          exact ih r hrest
        · rw [purchaseLoop_cons_full r l rest hr hc hq]
          have hcnn : 0 ≤ l.price * l.quantity := mul_nonneg hl.1 hl.2
          have htail := ih (r - l.price * l.quantity) hrest
          rw [max_eq_left (by linarith : (0:ℚ) ≤ r - l.price * l.quantity)] at htail
          rw [max_eq_left hr0]
          simpa using by linarith
      · by_cases hp : l.price > 0
        · rw [purchaseLoop_cons_part r l rest hr hc hp]
          have hcancel : r / l.price * l.price = r :=
            div_mul_cancel₀ r (ne_of_gt hp)
          rw [hcancel]
          have htail := ih (r - r) hrest
          rw [max_eq_left hr0]
          simp only [sub_self, max_self] at htail
          simpa using by linarith
        · rw [purchaseLoop_cons_part_zero r l rest hr hc hp]
          exact ih r hrest

/-- Loop invariant behind "no manufactured depth": the accumulated quantity
never exceeds the total quantity available across the levels. -/
lemma purchaseLoop_qty_le (asks : List Level) :
    ∀ r : ℚ, (∀ l ∈ asks, 0 ≤ l.price ∧ 0 ≤ l.quantity) →
      (purchaseLoop r asks).2.1 ≤ (asks.map Level.quantity).sum := by
  induction asks with
  | nil => intro r _; simp [purchaseLoop_nil]
  | cons l rest ih =>
    intro r h
    have hl := h l (List.mem_cons_self l rest)
    have hrest : ∀ l' ∈ rest, 0 ≤ l'.price ∧ 0 ≤ l'.quantity :=
      fun l' hl' => h l' (List.mem_cons_of_mem _ hl')
    have hsum : (0:ℚ) ≤ (rest.map Level.quantity).sum :=
      List.sum_nonneg (by
        intro q hq
        rcases List.mem_map.mp hq with ⟨l', hl', rfl⟩
        exact (hrest l' hl').2)
    by_cases hr : r ≤ 0
    · rw [purchaseLoop_of_nonpos _ _ hr]
      simp only [List.map_cons, List.sum_cons]
      linarith [hl.2]
    · by_cases hc : l.price * l.quantity ≤ r
      · by_cases hq : l.quantity ≤ 0
        · rw [purchaseLoop_cons_full_skip r l rest hr hc hq]
          simp only [List.map_cons, List.sum_cons]
          linarith [ih r hrest, hl.2]
        · rw [purchaseLoop_cons_full r l rest hr hc hq]
          simp only [List.map_cons, List.sum_cons]
          have := ih (r - l.price * l.quantity) hrest
          simpa using by linarith
      · by_cases hp : l.price > 0
        · rw [purchaseLoop_cons_part r l rest hr hc hp]
          simp only [List.map_cons, List.sum_cons]
          have hfill : r / l.price ≤ l.quantity := by
            rw [div_le_iff₀ hp]
            nlinarith [lt_of_not_le hc]
          have := ih (r - r / l.price * l.price) hrest
          simpa using by linarith
        · rw [purchaseLoop_cons_part_zero r l rest hr hc hp]
          simp only [List.map_cons, List.sum_cons]
          linarith [ih r hrest, hl.2]

/-- Calculator applied to a book with no usable ask levels: the zero plan. -/
lemma calc_of_empty_asks (budget : ℚ) (book : Book) (h : extractAsks book = []) :
    calculate_purchase_amount budget book = zeroPlan := by
  by_cases h0 : budget ≤ 0
  · simp [calculate_purchase_amount, h0]
  · norm_num [calculate_purchase_amount, h0, h, purchaseLoop_nil, zeroPlan]

/-! ## The claims -/

/-- Claim C1 (budget conservation): for every budget `b ≥ 0` and every ask
sequence whose levels all have non-negative price and quantity, the plan
computed by `calculate_purchase_amount` spends at most `b`. -/
theorem budget_conservation (budget : ℚ) (book : Book)
    (hb : 0 ≤ budget)
    (h : ∀ l ∈ extractAsks book, 0 ≤ l.price ∧ 0 ≤ l.quantity) :
    (calculate_purchase_amount budget book).total_cost ≤ budget := by
  by_cases h0 : budget ≤ 0
  · simpa [calculate_purchase_amount, h0, zeroPlan] using hb
  · have hle := purchaseLoop_cost_le (extractAsks book) budget h
    rw [max_eq_left hb] at hle
    simpa [calculate_purchase_amount, h0] using hle

theorem budget_conservation_witness :
    0 ≤ (15:ℚ) ∧
    (∀ l ∈ extractAsks (Book.dict ⟨none, some (some [⟨1, 10⟩, ⟨2, 10⟩]), none, none⟩),
      0 ≤ l.price ∧ 0 ≤ l.quantity) ∧
    (calculate_purchase_amount 15
        (Book.dict ⟨none, some (some [⟨1, 10⟩, ⟨2, 10⟩]), none, none⟩)).total_cost ≤ 15 :=
  ⟨by decide, by decide,
    budget_conservation 15 (Book.dict ⟨none, some (some [⟨1, 10⟩, ⟨2, 10⟩]), none, none⟩)
      (by decide) (by decide)⟩

/-- Claim C2, counterexample: with budget `1` and the single ask level
`price = 0, quantity = 5`, the level is *not* skipped — `cost_full = 0 ≤
remaining` routes it through the full-consumption branch, so an allocation
with `price = 0` and fill quantity `5` (not `0`) is emitted. -/
theorem zero_price_counterexample :
    (calculate_purchase_amount 1
        (Book.dict ⟨none, some (some [⟨0, 5⟩]), none, none⟩)).purchases = [⟨0, 5, 0⟩] ∧
    ¬ (∀ a ∈ (calculate_purchase_amount 1
        (Book.dict ⟨none, some (some [⟨0, 5⟩]), none, none⟩)).purchases, a.price ≠ 0) := by
  have h : (calculate_purchase_amount 1
      (Book.dict ⟨none, some (some [⟨0, 5⟩]), none, none⟩)).purchases = [⟨0, 5, 0⟩] := by
    norm_num [calculate_purchase_amount, purchaseLoop, extractAsks, orEmpty]
  refine ⟨h, fun hall => ?_⟩
  exact hall ⟨0, 5, 0⟩ (h ▸ List.mem_singleton.mpr rfl) rfl

/-- Claim C2 as amended: for every budget `b > 0`, a zero-price level at the
head of the asks is consumed *in full* (allocation `price 0, quantity q,
cost 0`) whenever its quantity `q` is positive, and contributes nothing only
when `q ≤ 0`; the division-by-zero guard lives in the partial-fill branch,
which a zero-price level never reaches. -/
theorem zero_price_level_amended (b q : ℚ) (rest : List Level) (hb : 0 < b) :
    (0 < q →
      (calculate_purchase_amount b
          (Book.dict ⟨none, some (some (⟨0, q⟩ :: rest)), none, none⟩)).purchases.head? =
        some ⟨0, q, 0⟩) ∧
    (q ≤ 0 →
      calculate_purchase_amount b (Book.dict ⟨none, some (some (⟨0, q⟩ :: rest)), none, none⟩) =
        calculate_purchase_amount b (Book.dict ⟨none, some (some rest), none, none⟩)) := by
  have hr : ¬ b ≤ 0 := not_le.mpr hb
  have hc : (⟨0, q⟩ : Level).price * (⟨0, q⟩ : Level).quantity ≤ b := by
    simpa using le_of_lt hb
  constructor
  · intro hq
    rw [show (calculate_purchase_amount b
        (Book.dict ⟨none, some (some (⟨0, q⟩ :: rest)), none, none⟩)).purchases =
        (purchaseLoop b (⟨0, q⟩ :: rest)).1 by simp [calculate_purchase_amount, hr, extractAsks, orEmpty]]
    rw [purchaseLoop_cons_full b ⟨0, q⟩ rest hr hc (not_le.mpr hq)]
    simp
  · intro hq
    have hskip := purchaseLoop_cons_full_skip b ⟨0, q⟩ rest hr hc hq
    simp only [calculate_purchase_amount, extractAsks, orEmpty, Option.getD, hr, if_neg hr]
    rw [hskip]

theorem zero_price_level_amended_witness :
    0 < (1:ℚ) ∧ 0 < (5:ℚ) ∧
    (calculate_purchase_amount 1
        (Book.dict ⟨none, some (some [⟨0, 5⟩]), none, none⟩)).purchases.head? =
      some ⟨0, 5, 0⟩ :=
  ⟨by decide, by decide, (zero_price_level_amended 1 5 [] (by decide)).1 (by decide)⟩

/-- Claim C3 (Scenario A): budget `15` against asks
`[(price 1, qty 10), (price 2, qty 10)]` yields exactly total quantity
`12.5`, total cost `15`, average price `1.2`, with the two allocations
`(1, 10, 10)` and `(2, 2.5, 5)`. -/
theorem scenario_A :
    calculate_purchase_amount 15
      (Book.dict ⟨none, some (some [⟨1, 10⟩, ⟨2, 10⟩]), none, none⟩) =
    { total_quantity := 25/2, total_cost := 15, average_price := 6/5,
      purchases := [⟨1, 10, 10⟩, ⟨2, 5/2, 5⟩] } := by
  norm_num [calculate_purchase_amount, purchaseLoop, extractAsks, orEmpty]

/-- Claim C4: a non-positive budget returns the zero plan for every book;
the function returns normally (it is total), no error path exists. -/
theorem nonpositive_budget_zero_plan (budget : ℚ) (book : Book) (h : budget ≤ 0) :
    calculate_purchase_amount budget book = zeroPlan := by
  simp [calculate_purchase_amount, h]

theorem nonpositive_budget_zero_plan_witness :
    (0:ℚ) ≤ 0 ∧ calculate_purchase_amount 0 Book.nondict = zeroPlan :=
  ⟨by decide, nonpositive_budget_zero_plan 0 Book.nondict (by decide)⟩

/-- Claim C5 (no manufactured depth): with non-negative prices and
quantities, the plan's total quantity never exceeds the total quantity
available across the ask levels. -/
theorem no_manufactured_depth (budget : ℚ) (book : Book)
    (hb : 0 ≤ budget)
    (h : ∀ l ∈ extractAsks book, 0 ≤ l.price ∧ 0 ≤ l.quantity) :
    (calculate_purchase_amount budget book).total_quantity ≤
      ((extractAsks book).map Level.quantity).sum := by
  by_cases h0 : budget ≤ 0
  · simp only [calculate_purchase_amount, if_pos h0, zeroPlan]
    exact List.sum_nonneg (by
      intro q hq
      rcases List.mem_map.mp hq with ⟨l', hl', rfl⟩
      exact (h l' hl').2)
  · simpa [calculate_purchase_amount, h0] using
      purchaseLoop_qty_le (extractAsks book) budget h

theorem no_manufactured_depth_witness :
    0 ≤ (15:ℚ) ∧
    (∀ l ∈ extractAsks (Book.dict ⟨none, some (some [⟨1, 10⟩, ⟨2, 10⟩]), none, none⟩),
      0 ≤ l.price ∧ 0 ≤ l.quantity) ∧
    (calculate_purchase_amount 15
        (Book.dict ⟨none, some (some [⟨1, 10⟩, ⟨2, 10⟩]), none, none⟩)).total_quantity ≤
      ((extractAsks (Book.dict ⟨none, some (some [⟨1, 10⟩, ⟨2, 10⟩]), none, none⟩)).map
        Level.quantity).sum :=
  ⟨by decide, by decide,
    no_manufactured_depth 15 (Book.dict ⟨none, some (some [⟨1, 10⟩, ⟨2, 10⟩]), none, none⟩)
      (by decide) (by decide)⟩

/-- Claim C6 (legacy key normalization): on a dict book carrying the legacy
singular keys `ask` and `bid`, `get_order_book` returns a dict whose
canonical `asks`/`bids` keys hold the legacy values unchanged (a `None`
value normalized to the empty list) and whose legacy keys are absent. -/
theorem legacy_key_normalization (b : RawBook) (av bv : JVal)
    (ha : b.ask = some av) (hb : b.bid = some bv) :
    get_order_book (Book.dict b) =
      Book.dict ⟨none, some (some (orEmpty av)), none, some (some (orEmpty bv))⟩ := by
  cases b with
  | mk ask asks bid bids =>
    simp only [RawBook.mk.injEq] at *
    subst ha hb
    simp [get_order_book]

theorem legacy_key_normalization_witness :
    (RawBook.ask ⟨some (some [⟨1, 2⟩]), some (some [⟨9, 9⟩]), some none, none⟩ =
      some (some [⟨1, 2⟩])) ∧
    (RawBook.bid ⟨some (some [⟨1, 2⟩]), some (some [⟨9, 9⟩]), some none, none⟩ = some none) ∧
    get_order_book (Book.dict ⟨some (some [⟨1, 2⟩]), some (some [⟨9, 9⟩]), some none, none⟩) =
      Book.dict ⟨none, some (some [⟨1, 2⟩]), none, some (some [])⟩ :=
  ⟨by decide, by decide,
    legacy_key_normalization ⟨some (some [⟨1, 2⟩]), some (some [⟨9, 9⟩]), some none, none⟩
      (some [⟨1, 2⟩]) none (by decide) (by decide)⟩

/-- Claim C7 (determinism of signing): the `X-LA-SIGNATURE` value of
`place_order` — the hex HMAC-SHA512 of the canonical body keyed by the
secret — is a function of the body bytes and the secret alone: equal
inputs give equal hex digests on any two computations. -/
theorem signing_deterministic (s₁ s₂ body₁ body₂ : List Nat)
    (hs : s₁ = s₂) (hb : body₁ = body₂) :
    place_order_signature s₁ body₁ = place_order_signature s₂ body₂ := by
  subst hs hb
  rfl

theorem signing_deterministic_witness :
    ([2, 3] : List Nat) = [2, 3] ∧ ([7] : List Nat) = [7] ∧
    place_order_signature [2, 3] [7] = place_order_signature [2, 3] [7] :=
  ⟨rfl, rfl, signing_deterministic [2, 3] [2, 3] [7] [7] rfl rfl⟩

/-- Claim C8 (order type derivation): the payload built by `place_order`
has `type = LIMIT` exactly when the `price` argument is present, and
carries a `price` field exactly when its type is `LIMIT`. -/
theorem order_type_derived (cid qid side : String) (qty : ℚ) (price : Option ℚ)
    (cond : String) (coid : Option String) (ts : Nat) :
    ((place_order_payload cid qid side qty price cond coid ts).type = OType.LIMIT ↔
      price.isSome = true) ∧
    ((place_order_payload cid qid side qty price cond coid ts).price.isSome = true ↔
      (place_order_payload cid qid side qty price cond coid ts).type = OType.LIMIT) := by
  cases price <;> simp [place_order_payload]

/-- Claim C9 (scheduler failure isolation): whatever the outcomes of the
WIX budget lookup and the LATOKEN order-book fetch — value or exception —
`run_cycle` returns normally, the scheduler transitions back to `Idle`,
and a whole schedule of cycles never reaches the `Crashed` state. -/
theorem scheduler_failure_isolation (w : PyResult ℚ) (f : PyResult Book)
    (schedule : List (PyResult ℚ × PyResult Book)) :
    MarketMaker.run_cycle w f = PyResult.ok () ∧
    scheduler_next w f = SchedState.Idle ∧
    scheduler_run schedule = SchedState.Idle := by
  refine ⟨rfl, rfl, ?_⟩
  induction schedule with
  | nil => rfl
  | cons p rest ih =>
    cases p
    simpa [scheduler_run, MarketMaker.run_cycle] using ih

/-- Claim C10 (canonical key precedence): when a dict book carries both the
canonical `asks` key and the legacy `ask` key, the calculator reads its
levels from `asks` alone (the result depends only on that value); a
non-dict book, an `asks` key holding `None`, or a fallback `ask` key
holding `None`, all amount to an empty ask list and give the zero plan. -/
theorem canonical_key_precedence (budget : ℚ) (b : RawBook) (v av : JVal)
    (hasks : b.asks = some v) (hask : b.ask = some av) :
    extractAsks (Book.dict b) = orEmpty v ∧
    calculate_purchase_amount budget Book.nondict = zeroPlan ∧
    (v = none → calculate_purchase_amount budget (Book.dict b) = zeroPlan) ∧
    (∀ b' : RawBook, b'.asks = none → b'.ask = some none →
      calculate_purchase_amount budget (Book.dict b') = zeroPlan) := by
  have hextract : extractAsks (Book.dict b) = orEmpty v := by
    simp [extractAsks, hasks]
  refine ⟨hextract, calc_of_empty_asks budget Book.nondict rfl, ?_, ?_⟩
  · intro hv
    exact calc_of_empty_asks budget (Book.dict b) (by simp [hextract, hv, orEmpty])
  · intro b' h1 h2
    exact calc_of_empty_asks budget (Book.dict b') (by simp [extractAsks, h1, h2, orEmpty])

theorem canonical_key_precedence_witness :
    (RawBook.asks ⟨some (some [⟨3, 4⟩]), some (some [⟨1, 2⟩]), none, none⟩ =
      some (some [⟨1, 2⟩])) ∧
    (RawBook.ask ⟨some (some [⟨3, 4⟩]), some (some [⟨1, 2⟩]), none, none⟩ =
      some (some [⟨3, 4⟩])) ∧
    extractAsks (Book.dict ⟨some (some [⟨3, 4⟩]), some (some [⟨1, 2⟩]), none, none⟩) =
      orEmpty (some [⟨1, 2⟩]) :=
  ⟨by decide, by decide,
    (canonical_key_precedence 7 ⟨some (some [⟨3, 4⟩]), some (some [⟨1, 2⟩]), none, none⟩
      (some [⟨1, 2⟩]) (some [⟨3, 4⟩]) (by decide) (by decide)).1⟩

end Latoken
